import Mathlib

/-!
Verification of the segmented download/export pipeline of the
jira-download repository.

The definitions below are a shallow embedding of the JavaScript source:

* the segment grouping loop of `processDownloadJob`
  (src/workers/download-worker.js, lines 241-308), which is also,
  verbatim, the grouping loop of the part_006 download handler
  (src/unnamed/part_006, lines 204-291);
* the segment grouping loop of the `/api/download-tickets` handler
  (src/server.js, lines 206-264), which differs from the worker loop in
  two places: it has no zero-size skip, and its flush branch pushes the
  current segment without checking that it is non-empty;
* the per-attachment retry loop and the job-boundary catch block of
  `processDownloadJob` (download-worker.js lines 317-465);
* the job/segment store operations of src/workers/queue-manager.js
  (`saveJobToDatabase`, `getJobs`, `getJobById`, `cancelJob`).

JavaScript numbers are modelled by `JsNum`: every value the segmentation
loop manipulates is either a non-negative integer byte count or NaN (the
result of `parseInt` on an unparseable size string).  NaN propagates
through `+` and compares false under `>` and `=== 0`, exactly as in JS.
Negative sizes do not arise for the inputs the claims quantify over
(non-negative integer sizes) and are outside this model.
-/

namespace JiraDL

/-- A JavaScript number as used by the segmentation loop: a non-negative
integer, or NaN. -/
inductive JsNum where
  | num (n : Nat)
  | nan
  deriving DecidableEq, Repr

/-- JS addition: NaN is absorbing. -/
def jadd : JsNum → JsNum → JsNum
  | .num a, .num b => .num (a + b)
  | _, _ => .nan

/-- JS comparison `x > limit`: NaN compares false. -/
def jgt : JsNum → Nat → Bool
  | .num a, l => decide (l < a)
  | .nan, _ => false

/-- JS strict equality `x === 0`: false for NaN. -/
def jeqZero : JsNum → Bool
  | .num a => decide (a = 0)
  | .nan => false

/-- The raw `size` metadata on an attachment record: present with a numeric
value, absent, or an unparseable string. -/
inductive SizeField where
  | missing
  | numStr (n : Nat)
  | unparseable
  deriving DecidableEq, Repr

/-- Models `parseInt(attachment.size || 0)`: a missing size falls back to 0,
a numeric string parses to its value, anything else parses to NaN. -/
def parseSize : SizeField → JsNum
  | .missing => .num 0
  | .numStr n => .num n
  | .unparseable => .nan

/-- An attachment descriptor as enumerated from the fetched issues.
`attId` models the JavaScript object identity of the attachment metadata
record (the loops store the object itself in each part; we store its id). -/
structure Attachment where
  attId : Nat
  ticket : String
  filename : String
  size : SizeField
  deriving DecidableEq, Repr

/-- A file entry of a segment plan, as built by the worker grouping loop
(fields ticket, attachment, partNumber, totalParts, startByte, endByte,
size).  `startByte` is always written from integer expressions in the
source, so it is a `Nat`; `endByte` and `partSize` are written from
`attachmentSize`, which can be NaN. -/
structure Part where
  attId : Nat
  ticket : String
  filename : String
  partNumber : Nat
  totalParts : Nat
  startByte : Nat
  endByte : JsNum
  partSize : JsNum
  deriving DecidableEq, Repr

/-- A segment plan (an element of `attachmentSegments`). -/
structure Plan where
  files : List Part
  size : JsNum
  number : Nat
  deriving DecidableEq, Repr

/-- The loop state of the grouping pass: the emitted plans so far plus the
accumulating current segment. -/
structure PlannerState where
  segs : List Plan
  cur : Plan
  deriving DecidableEq, Repr

/-- Math.ceil(n / L) for positive integers. -/
def jsCeilDiv (n L : Nat) : Nat := (n + L - 1) / L

/-- A whole-attachment part: partNumber 1 of 1, byte range [0, size). -/
def wholePart (a : Attachment) (sz : JsNum) : Part :=
  { attId := a.attId, ticket := a.ticket, filename := a.filename,
    partNumber := 1, totalParts := 1,
    startByte := 0, endByte := sz, partSize := sz }

/-- The burst of single-part plans emitted for an attachment of size `n`
larger than the limit `L` (download-worker.js lines 249-268): for
`i = 0 .. k-1` one plan with byte range `[i*L, min((i+1)*L, n))` and
`number = base + i + 1`, where `base` is the number of plans already
emitted when the burst starts.  `fuel` counts the remaining iterations and
starts at `k = jsCeilDiv n L`. -/
def oversizedPlans (a : Attachment) (n L k base : Nat) : Nat → Nat → List Plan
  | _, 0 => []
  | i, fuel + 1 =>
    { files := [{ attId := a.attId, ticket := a.ticket, filename := a.filename,
                  partNumber := i + 1, totalParts := k,
                  startByte := i * L,
                  endByte := .num (min ((i + 1) * L) n),
                  partSize := .num (min ((i + 1) * L) n - i * L) }],
      size := .num (min ((i + 1) * L) n - i * L),
      number := base + i + 1 } :: oversizedPlans a n L k base (i + 1) fuel

/-- The append branch of the worker loop (download-worker.js lines
290-301): the attachment joins the current segment; the current segment's
`number` is left untouched. -/
def appendCurrent (st : PlannerState) (a : Attachment) (sz : JsNum) : PlannerState :=
  { st with cur := { files := st.cur.files ++ [wholePart a sz],
                     size := jadd st.cur.size sz,
                     number := st.cur.number } }

/-- The flush branch of the worker loop (download-worker.js lines 271-288):
the current segment is pushed if non-empty, and a fresh current segment is
started holding just this attachment, numbered `segs.length + 1` after the
push. -/
def flushAndStart (st : PlannerState) (a : Attachment) (sz : JsNum) : PlannerState :=
  let segs1 := if st.cur.files.length > 0 then st.segs ++ [st.cur] else st.segs
  { segs := segs1,
    cur := { files := [wholePart a sz], size := sz, number := segs1.length + 1 } }

/-- One iteration of the worker grouping loop (download-worker.js lines
244-302; identically src/unnamed/part_006 lines 208-272) on one
attachment.  The source tests, in order: `attachmentSize === 0` (skip),
`attachmentSize > L` (split into a burst of single-part plans),
`current.size + attachmentSize > L` (flush), else append.  When
`parseInt` yields NaN all three tests are false in JS, so a NaN-sized
attachment always takes the append branch. -/
def stepWorker (L : Nat) (st : PlannerState) (a : Attachment) : PlannerState :=
  match parseSize a.size with
  | .num 0 => st
  | .num (m + 1) =>
    if L < m + 1 then
      { st with segs := st.segs ++
          oversizedPlans a (m + 1) L (jsCeilDiv (m + 1) L) st.segs.length 0 (jsCeilDiv (m + 1) L) }
    else if jgt (jadd st.cur.size (.num (m + 1))) L then
      flushAndStart st a (.num (m + 1))
    else
      appendCurrent st a (.num (m + 1))
  | .nan => appendCurrent st a .nan

/-- The initial loop state (download-worker.js lines 232-236). -/
def initPlanner : PlannerState :=
  { segs := [], cur := { files := [], size := .num 0, number := 1 } }

/-- The post-loop flush (download-worker.js lines 306-308). -/
def finalizePlans (st : PlannerState) : List Plan :=
  if st.cur.files.length > 0 then st.segs ++ [st.cur] else st.segs

/-- The whole worker grouping pass: fold the loop over the attachments in
input order, then flush the final current segment. -/
def segmentWorker (L : Nat) (atts : List Attachment) : List Plan :=
  finalizePlans (atts.foldl (stepWorker L) initPlanner)

/-- The records written by the per-segment `saveSegmentInfo` calls
(download-worker.js lines 399-409 and 537-556): each emitted plan is
persisted with its own `number` and the final plan count as
`total_segments`. -/
structure SegmentRecord where
  number : Nat
  totalSegments : Nat
  status : String
  fileCount : Nat
  sizeBytes : JsNum
  deriving DecidableEq, Repr

/-- The sequence of segment rows the worker inserts for a finished plan
list. -/
def segmentRecords (plans : List Plan) : List SegmentRecord :=
  plans.map (fun s =>
    { number := s.number, totalSegments := plans.length,
      status := "completed", fileCount := s.files.length, sizeBytes := s.size })

/-- The zero-plan check of the part_006 download handler
(src/unnamed/part_006 lines 293-296): after grouping, a plan count of 0
throws `No valid attachments found to download`, which the enclosing
segmentation try/catch (line 302-305) rethrows prefixed with
`Failed to organize attachments: `. -/
def part006SegmentationOutcome (L : Nat) (atts : List Attachment) :
    Except String (List Plan) :=
  let plans := segmentWorker L atts
  if plans.length == 0 then
    .error ("Failed to organize attachments: " ++ "No valid attachments found to download")
  else
    .ok plans

/-! ### The server.js variant of the grouping loop

src/server.js lines 206-264.  Differences from the worker loop: there is
no `attachmentSize === 0` skip; the flush branch pushes the current
segment unconditionally (no emptiness guard); the part records carry no
`size` field; and the oversized-plan size is written as
`min(L, n - i*L)` instead of `endByte - startByte` (the same value). -/

/-- A file entry of a server-path segment plan (no `size` field). -/
structure SPart where
  attId : Nat
  ticket : String
  filename : String
  partNumber : Nat
  totalParts : Nat
  startByte : Nat
  endByte : JsNum
  deriving DecidableEq, Repr

/-- A server-path segment plan. -/
structure SPlan where
  files : List SPart
  size : JsNum
  number : Nat
  deriving DecidableEq, Repr

/-- Loop state of the server grouping pass. -/
structure SState where
  segs : List SPlan
  cur : SPlan
  deriving DecidableEq, Repr

/-- Whole-attachment part, server shape. -/
def wholePartS (a : Attachment) (sz : JsNum) : SPart :=
  { attId := a.attId, ticket := a.ticket, filename := a.filename,
    partNumber := 1, totalParts := 1, startByte := 0, endByte := sz }

/-- Oversized burst, server shape (server.js lines 213-229). -/
def oversizedPlansS (a : Attachment) (n L k base : Nat) : Nat → Nat → List SPlan
  | _, 0 => []
  | i, fuel + 1 =>
    { files := [{ attId := a.attId, ticket := a.ticket, filename := a.filename,
                  partNumber := i + 1, totalParts := k,
                  startByte := i * L,
                  endByte := .num (min ((i + 1) * L) n) }],
      size := .num (min L (n - i * L)),
      number := base + i + 1 } :: oversizedPlansS a n L k base (i + 1) fuel

/-- One iteration of the server grouping loop (server.js lines 209-258).
No zero-size skip: a size-0 attachment falls through to the append branch
and contributes a zero-length part.  The flush push has no emptiness
guard. -/
def stepServer (L : Nat) (st : SState) (a : Attachment) : SState :=
  match parseSize a.size with
  | .num n =>
    if L < n then
      { st with segs := st.segs ++
          oversizedPlansS a n L (jsCeilDiv n L) st.segs.length 0 (jsCeilDiv n L) }
    else if jgt (jadd st.cur.size (.num n)) L then
      let segs1 := st.segs ++ [st.cur]
      { segs := segs1,
        cur := { files := [wholePartS a (.num n)], size := .num n,
                 number := segs1.length + 1 } }
    else
      { st with cur := { files := st.cur.files ++ [wholePartS a (.num n)],
                         size := jadd st.cur.size (.num n),
                         number := st.cur.number } }
  | .nan =>
    { st with cur := { files := st.cur.files ++ [wholePartS a .nan],
                       size := jadd st.cur.size .nan,
                       number := st.cur.number } }

/-- Initial state of the server grouping loop (server.js lines 199-203). -/
def initServer : SState :=
  { segs := [], cur := { files := [], size := .num 0, number := 1 } }

/-- Post-loop flush of the server grouping loop (server.js lines 262-264,
guarded on non-emptiness like the worker). -/
def finalizePlansS (st : SState) : List SPlan :=
  if st.cur.files.length > 0 then st.segs ++ [st.cur] else st.segs

/-- The whole server grouping pass. -/
def segmentServer (L : Nat) (atts : List Attachment) : List SPlan :=
  finalizePlansS (atts.foldl (stepServer L) initServer)

/-! ### Derived queries over emitted plans -/

/-- All parts of a plan list, in emission order. -/
def planParts (plans : List Plan) : List Part :=
  (plans.map Plan.files).flatten

/-- The parts that reference attachment `i`, in emission order. -/
def partsFor (i : Nat) (plans : List Plan) : List Part :=
  (planParts plans).filter (fun p => p.attId == i)

/-- Byte ranges of a part list. -/
def rangesOf (ps : List Part) : List (Nat × JsNum) :=
  ps.map (fun p => (p.startByte, p.endByte))

/-- Server-path analogues. -/
def planPartsS (plans : List SPlan) : List SPart :=
  (plans.map SPlan.files).flatten

/-- Server-path parts referencing attachment `i`. -/
def partsForS (i : Nat) (plans : List SPlan) : List SPart :=
  (planPartsS plans).filter (fun p => p.attId == i)

/-- The byte ranges the oversized split produces for slices `i, i+1, ...`
with `fuel` slices remaining: slice `i` covers `[i*L, min((i+1)*L, n))`. -/
def slices (L n : Nat) : Nat → Nat → List (Nat × Nat)
  | _, 0 => []
  | i, fuel + 1 => (i * L, min ((i + 1) * L) n) :: slices L n (i + 1) fuel

/-- The byte ranges an attachment of positive size `n` is expected to be
covered by under limit `L`: a single range `[0, n)` when `n ≤ L`, else the
`jsCeilDiv n L` oversized slices. -/
def expectedRanges (L n : Nat) : List (Nat × Nat) :=
  if L < n then slices L n 0 (jsCeilDiv n L) else [(0, n)]

/-- Checks that a list of byte ranges exactly covers `[s, e)`: ranges in
order, each non-empty, each starting where the previous ended, the first
at `s`, the last ending at `e`.  This is the no-gap/no-overlap exact-cover
property. -/
def coversB : Nat → Nat → List (Nat × Nat) → Bool
  | s, e, [] => s == e
  | s, e, (a, b) :: rs => a == s && decide (s < b) && coversB b e rs

/-- One megabyte scale. -/
def MB (n : Nat) : Nat := n * 1024 * 1024

/-! ### The download/build phase of `processDownloadJob`

download-worker.js lines 313-465: for each plan, each of its files is
fetched with a retry loop (lines 345-372); after every file of a segment
succeeds, a segment row is inserted (`saveSegmentInfo`, lines 399-409);
after all segments the job is marked `completed`.  Any error escaping the
loop is caught at the job boundary (lines 437-465): if it is a timeout
error the persisted message is replaced by a fixed timeout text, and the
job is marked `failed`.

The remote is an oracle `fetch : Nat → Nat → Except JsError Unit`, indexed
by a global attempt counter and given the per-attempt timeout in
milliseconds.  `progressiveTimeout` in the source is
`min(T, T*(1 + fileSize/10MB))` with `T = defaults.api.timeout = 30000`
(src/unnamed/part_001 line 14); for every integer `fileSize ≥ 0` the
second operand is at least `T`, so the base timeout is always exactly `T`
and attempt `rc` runs with timeout `T * (rc + 1)`.  Parts with NaN sizes
are outside this model of the download phase. -/

/-- A JavaScript `Error` as the catch block inspects it: an optional
`code` and a `message`. -/
structure JsError where
  code : Option String
  message : String
  deriving DecidableEq, Repr

/-- Whether the first character list starts with the second. -/
def leadMatch : List Char → List Char → Bool
  | _, [] => true
  | [], _ :: _ => false
  | c :: cs, d :: ds => c == d && leadMatch cs ds

/-- Whether the needle occurs inside the haystack (character lists). -/
def containsChars : List Char → List Char → Bool
  | [], needle => needle.isEmpty
  | c :: cs, needle => leadMatch (c :: cs) needle || containsChars cs needle

/-- JS `hay.includes(needle)`. -/
def strIncludes (hay needle : String) : Bool :=
  containsChars hay.data needle.data

/-- defaults.api.timeout (src/unnamed/part_001 line 14). -/
def defaultsApiTimeout : Nat := 30000

/-- defaults.api.maxRetries (src/unnamed/part_001 line 15). -/
def defaultsApiMaxRetries : Nat := 3

/-- defaults.segmentSizeLimit (src/unnamed/part_001 line 26). -/
def defaultsSegmentSizeLimit : Nat := 50 * 1024 * 1024

/-- The fixed message the catch block substitutes for timeout errors
(download-worker.js line 445). -/
def timeoutMessage : String :=
  "Request timed out. The server took too long to respond. Try again later or contact your administrator if the issue persists."

/-- Models `error.message || 'Unknown error occurred'`
(download-worker.js line 441). -/
def jsErrorMessage (e : JsError) : String :=
  if e.message == "" then "Unknown error occurred" else e.message

/-- The catch block's timeout test (download-worker.js line 444):
`error.code === 'ECONNABORTED' || errorMessage.includes('timeout')`. -/
def isTimeoutError (e : JsError) : Bool :=
  e.code == some "ECONNABORTED" || strIncludes (jsErrorMessage e) "timeout"

/-- The error message the job is failed with (download-worker.js lines
441-447). -/
def errorToStatusMessage (e : JsError) : String :=
  if isTimeoutError e then timeoutMessage else jsErrorMessage e

/-- The per-file retry loop (download-worker.js lines 341-372): attempt
`rc` uses timeout `pt * (rc + 1)`; a success yields the next value of the
global attempt counter; when the retry budget is exhausted the last error
is thrown.  `retriesLeft` starts at `defaults.api.maxRetries`. -/
def attemptLoop (fetch : Nat → Nat → Except JsError Unit) (pt : Nat) :
    Nat → Nat → Nat → Except JsError Nat
  | gidx, rc, 0 =>
    match fetch gidx (pt * (rc + 1)) with
    | .ok _ => .ok (gidx + 1)
    | .error e => .error e
  | gidx, rc, retriesLeft + 1 =>
    match fetch gidx (pt * (rc + 1)) with
    | .ok _ => .ok (gidx + 1)
    | .error _ => attemptLoop fetch pt (gidx + 1) (rc + 1) retriesLeft

/-- The inner loop over one segment's files (download-worker.js lines
330-383): each file is downloaded with the retry loop; the first
exhausted retry budget aborts the segment with that error. -/
def runFiles (fetch : Nat → Nat → Except JsError Unit) :
    Nat → List Part → Except JsError Nat
  | gidx, [] => .ok gidx
  | gidx, _f :: fs =>
    match attemptLoop fetch defaultsApiTimeout gidx 0 defaultsApiMaxRetries with
    | .ok g => runFiles fetch g fs
    | .error e => .error e

/-- The observable outcome of the attachment phase of a job: the final
status row, the persisted error message, and the segment rows inserted. -/
structure JobOutcome where
  status : String
  error : Option String
  savedSegments : List SegmentRecord
  deriving DecidableEq, Repr

/-- The outer loop over segments (download-worker.js lines 317-435) with
the job-boundary catch block (lines 437-465): segments are built in plan
order; a segment row is inserted only after every file of that segment
downloaded; an escaping error fails the job with the mapped message,
keeping the rows inserted so far. -/
def runPlans (fetch : Nat → Nat → Except JsError Unit) (total : Nat) :
    Nat → List Plan → List SegmentRecord → JobOutcome
  | _, [], acc => { status := "completed", error := none, savedSegments := acc }
  | gidx, p :: rest, acc =>
    match runFiles fetch gidx p.files with
    | .error e =>
      { status := "failed", error := some (errorToStatusMessage e), savedSegments := acc }
    | .ok g =>
      runPlans fetch total g rest
        (acc ++ [{ number := p.number, totalSegments := total, status := "completed",
                   fileCount := p.files.length, sizeBytes := p.size }])

/-- The whole attachment download phase for a finished plan list. -/
def runAttachmentPhase (fetch : Nat → Nat → Except JsError Unit)
    (plans : List Plan) : JobOutcome :=
  runPlans fetch plans.length 0 plans []

/-! ### The job state store (src/workers/queue-manager.js)

Rows mirror the download_jobs and download_segments tables.  The database
itself is modelled as in-memory lists; the sqlite error callbacks
(connection failures) are outside the model. -/

/-- A row of the download_jobs table (queue-manager.js lines 113-128). -/
structure JobRow where
  job_id : String
  username : String
  api_key : String
  project_key : String
  download_type : String
  file_format : String
  download_path : String
  status : String
  created_at : String
  updated_at : String
  completed_at : Option String
  error : Option String
  deriving DecidableEq, Repr

/-- A row of the download_segments table (download-worker.js lines
541-545). -/
structure SegRow where
  job_id : String
  segment_number : Nat
  total_segments : Nat
  status : String
  file_path : String
  file_count : Nat
  size_bytes : Nat
  created_at : String
  updated_at : String
  deriving DecidableEq, Repr

/-- The persistent store. -/
structure Db where
  jobs : List JobRow
  segments : List SegRow
  deriving DecidableEq, Repr

/-- The columns of the segment SELECT in getJobs/getJobById
(queue-manager.js lines 169 and 231): every SegRow column except
job_id. -/
structure SegView where
  segment_number : Nat
  total_segments : Nat
  status : String
  file_path : String
  file_count : Nat
  size_bytes : Nat
  created_at : String
  updated_at : String
  deriving DecidableEq, Repr

/-- The columns of the job SELECT in getJobs/getJobById (queue-manager.js
lines 149-150 and 217-218) — note username and api_key are not selected —
plus the `segments` property attached afterwards (`none` models the
property being absent). -/
structure JobView where
  job_id : String
  project_key : String
  download_type : String
  file_format : String
  download_path : String
  status : String
  created_at : String
  updated_at : String
  completed_at : Option String
  error : Option String
  segments : Option (List SegView)
  deriving DecidableEq, Repr

/-- Projection of a segment row to the selected columns. -/
def toSegView (s : SegRow) : SegView :=
  { segment_number := s.segment_number, total_segments := s.total_segments,
    status := s.status, file_path := s.file_path, file_count := s.file_count,
    size_bytes := s.size_bytes, created_at := s.created_at,
    updated_at := s.updated_at }

/-- The segment subquery: rows of one job, ordered by segment_number
(queue-manager.js lines 168-172). -/
def segmentsForJob (segs : List SegRow) (jobId : String) : List SegView :=
  (List.insertionSort (fun x y => x.segment_number ≤ y.segment_number)
    (segs.filter (fun s => s.job_id == jobId))).map toSegView

/-- ORDER BY created_at DESC: a job sorts before another when its
created_at is at least as large. -/
def jobNewerRel (a b : JobRow) : Prop :=
  b.created_at ≤ a.created_at

instance : DecidableRel jobNewerRel :=
  fun a b => inferInstanceAs (Decidable (b.created_at ≤ a.created_at))

/-- The job view getJobs produces for one row (queue-manager.js lines
163-192): segments are fetched and attached only when the job's status is
completed. -/
def listJobView (segs : List SegRow) (j : JobRow) : JobView :=
  { job_id := j.job_id, project_key := j.project_key,
    download_type := j.download_type, file_format := j.file_format,
    download_path := j.download_path, status := j.status,
    created_at := j.created_at, updated_at := j.updated_at,
    completed_at := j.completed_at, error := j.error,
    segments := if j.status == "completed"
                then some (segmentsForJob segs j.job_id) else none }

/-- getJobs (queue-manager.js lines 146-206): select all jobs newest
first, attaching segments only to completed jobs. -/
def getJobs (db : Db) : List JobView :=
  (List.insertionSort jobNewerRel db.jobs).map (listJobView db.segments)

/-- The job view getJobById produces for the found row (queue-manager.js
lines 217-244): the selected columns plus the job's segment rows, attached
unconditionally. -/
def jobByIdView (segs : List SegRow) (jobId : String) (j : JobRow) : JobView :=
  { job_id := j.job_id, project_key := j.project_key,
    download_type := j.download_type, file_format := j.file_format,
    download_path := j.download_path, status := j.status,
    created_at := j.created_at, updated_at := j.updated_at,
    completed_at := j.completed_at, error := j.error,
    segments := some (segmentsForJob segs jobId) }

/-- getJobById (queue-manager.js lines 214-250): select the job row or
reject with `Job not found`; segments are fetched and attached
unconditionally, with no status check. -/
def getJobById (db : Db) (jobId : String) : Except String JobView :=
  match db.jobs.find? (fun j => j.job_id == jobId) with
  | none => .error "Job not found"
  | some j => .ok (jobByIdView db.segments jobId j)

/-- saveJobToDatabase (queue-manager.js lines 111-139): the inserted row
carries the submitter's username and api_key. -/
def saveJobToDatabase (db : Db) (job : JobRow) : Db :=
  { db with jobs := db.jobs ++ [job] }

/-- cancelJob (queue-manager.js lines 259-297): look the job up; a missing
job rejects with `Job not found`; a job in any status other than pending
rejects with `Cannot cancel job with status: ...` and runs no UPDATE; a
pending job has its row set to cancelled (with a fresh updated_at). -/
def cancelJob (db : Db) (now : String) (jobId : String) : Except String Db :=
  match db.jobs.find? (fun j => j.job_id == jobId) with
  | none => .error "Job not found"
  | some row =>
    if row.status == "pending" then
      .ok { db with jobs := db.jobs.map (fun j =>
              if j.job_id == jobId
              then { j with status := "cancelled", updated_at := now }
              else j) }
    else
      .error ("Cannot cancel job with status: " ++ row.status)

/-- Blanks the credential columns of a job row; two rows that differ only
in username/api_key scrub to the same row. -/
def scrubJob (j : JobRow) : JobRow :=
  { j with username := "", api_key := "" }

/-! ### Helper lemmas about the worker grouping loop -/

/-- All parts held by a loop state: the parts of the emitted plans followed
by the parts of the accumulating segment. -/
def allParts (st : PlannerState) : List Part :=
  planParts st.segs ++ st.cur.files

/-- The parts of a loop state that reference attachment `i`. -/
def pf (i : Nat) (st : PlannerState) : List Part :=
  (allParts st).filter (fun p => p.attId == i)

theorem planParts_append (xs ys : List Plan) :
    planParts (xs ++ ys) = planParts xs ++ planParts ys := by
  simp [planParts]

theorem planParts_single (p : Plan) : planParts [p] = p.files := by
  simp [planParts]

theorem planParts_cons (p : Plan) (ps : List Plan) :
    planParts (p :: ps) = p.files ++ planParts ps := by
  simp [planParts]

theorem rangesOf_append (xs ys : List Part) :
    rangesOf (xs ++ ys) = rangesOf xs ++ rangesOf ys := by
  simp [rangesOf]

theorem oversizedPlans_attId (a : Attachment) (n L k base : Nat) :
    ∀ fuel i, ∀ p ∈ planParts (oversizedPlans a n L k base i fuel),
      p.attId = a.attId := by
  intro fuel
  induction fuel with
  | zero => intro i p hp; simp [oversizedPlans, planParts] at hp
  | succ fuel ih =>
    intro i p hp
    rw [oversizedPlans, planParts_cons] at hp
    rcases List.mem_append.mp hp with hp | hp
    · rw [List.mem_singleton] at hp
      subst hp
      rfl
    · exact ih (i + 1) p hp

theorem oversizedPlans_ranges (a : Attachment) (n L k base : Nat) :
    ∀ fuel i, rangesOf (planParts (oversizedPlans a n L k base i fuel))
      = (slices L n i fuel).map (fun r => (r.1, JsNum.num r.2)) := by
  intro fuel
  induction fuel with
  | zero => intro i; simp [oversizedPlans, slices, planParts, rangesOf]
  | succ fuel ih =>
    intro i
    rw [oversizedPlans, slices, planParts_cons, rangesOf_append, ih (i + 1)]
    rfl

/-! Equation lemmas for `stepWorker`, one per branch of the match on the
parsed size. -/

theorem stepWorker_zero (L : Nat) (st : PlannerState) (a : Attachment)
    (h : parseSize a.size = .num 0) : stepWorker L st a = st := by
  unfold stepWorker
  rw [h]

theorem stepWorker_num (L : Nat) (st : PlannerState) (a : Attachment) (m : Nat)
    (h : parseSize a.size = .num (m + 1)) :
    stepWorker L st a =
      if L < m + 1 then
        { st with segs := st.segs ++
            (oversizedPlans a (m + 1) L (jsCeilDiv (m + 1) L) st.segs.length 0 (jsCeilDiv (m + 1) L)) }
      else if jgt (jadd st.cur.size (.num (m + 1))) L then
        flushAndStart st a (.num (m + 1))
      else
        appendCurrent st a (.num (m + 1)) := by
  unfold stepWorker
  rw [h]

theorem stepWorker_nan (L : Nat) (st : PlannerState) (a : Attachment)
    (h : parseSize a.size = .nan) : stepWorker L st a = appendCurrent st a .nan := by
  unfold stepWorker
  rw [h]

theorem allParts_appendCurrent (st : PlannerState) (a : Attachment) (sz : JsNum) :
    allParts (appendCurrent st a sz) = allParts st ++ [wholePart a sz] := by
  simp [allParts, appendCurrent]

theorem allParts_flushAndStart (st : PlannerState) (a : Attachment) (sz : JsNum) :
    allParts (flushAndStart st a sz) = allParts st ++ [wholePart a sz] := by
  unfold allParts flushAndStart
  by_cases h : st.cur.files.length > 0
  · simp [h, planParts_append, planParts_single]
  · have hnil : st.cur.files = [] := by
      simpa using List.eq_nil_of_length_eq_zero (by omega)
    simp [h, hnil]

/-! Splitting lemmas for `pf` at each kind of successor state. -/

theorem pf_split (i : Nat) (st : PlannerState) :
    pf i st = (planParts st.segs).filter (fun p => p.attId == i)
      ++ st.cur.files.filter (fun p => p.attId == i) := by
  unfold pf allParts
  rw [List.filter_append]

theorem pf_oversized (st : PlannerState) (a : Attachment)
    (n L k base fuel i0 ii : Nat) :
    pf ii { st with segs := st.segs ++ oversizedPlans a n L k base i0 fuel }
      = (planParts st.segs).filter (fun p => p.attId == ii)
        ++ (planParts (oversizedPlans a n L k base i0 fuel)).filter (fun p => p.attId == ii)
        ++ st.cur.files.filter (fun p => p.attId == ii) := by
  unfold pf allParts
  simp [planParts_append, List.filter_append]

theorem pf_flush (i : Nat) (st : PlannerState) (a : Attachment) (sz : JsNum) :
    pf i (flushAndStart st a sz)
      = pf i st ++ [wholePart a sz].filter (fun p => p.attId == i) := by
  unfold pf
  rw [allParts_flushAndStart, List.filter_append]

theorem pf_append (i : Nat) (st : PlannerState) (a : Attachment) (sz : JsNum) :
    pf i (appendCurrent st a sz)
      = pf i st ++ [wholePart a sz].filter (fun p => p.attId == i) := by
  unfold pf
  rw [allParts_appendCurrent, List.filter_append]

theorem pf_step_ne (L : Nat) (st : PlannerState) (a : Attachment) (i : Nat)
    (hne : a.attId ≠ i) : pf i (stepWorker L st a) = pf i st := by
  have hwp : ∀ sz : JsNum, ([wholePart a sz].filter (fun p => p.attId == i)) = [] := by
    intro sz
    simp [wholePart]
    exact hne
  rcases hsz : parseSize a.size with n | _
  · rcases n with _ | m
    · rw [stepWorker_zero L st a hsz]
    · rw [stepWorker_num L st a m hsz]
      by_cases hov : L < m + 1
      · rw [if_pos hov]
        rw [pf_oversized, pf_split]
        have hmid : (planParts (oversizedPlans a (m + 1) L (jsCeilDiv (m + 1) L)
            st.segs.length 0 (jsCeilDiv (m + 1) L))).filter (fun p => p.attId == i) = [] := by
          rw [List.filter_eq_nil_iff]
          intro p hp
          have := oversizedPlans_attId a (m + 1) L (jsCeilDiv (m + 1) L) st.segs.length
            (jsCeilDiv (m + 1) L) 0 p hp
          simp [this, hne]
        rw [hmid]
        simp
      · rw [if_neg hov]
        by_cases hfl : jgt (jadd st.cur.size (JsNum.num (m + 1))) L
        · rw [if_pos hfl]
          rw [pf_flush, hwp, List.append_nil]
        · rw [if_neg hfl]
          rw [pf_append, hwp, List.append_nil]
  · rw [stepWorker_nan L st a hsz, pf_append, hwp, List.append_nil]

theorem step_skip_zero (L : Nat) (st : PlannerState) (a : Attachment)
    (h : parseSize a.size = .num 0) : stepWorker L st a = st :=
  stepWorker_zero L st a h

theorem pf_foldl (L i : Nat) :
    ∀ (l : List Attachment) (st : PlannerState),
      (∀ b ∈ l, b.attId = i → parseSize b.size = .num 0) →
      pf i (l.foldl (stepWorker L) st) = pf i st := by
  intro l
  induction l with
  | nil => intro st _; rfl
  | cons b l ih =>
    intro st hz
    rw [List.foldl_cons]
    by_cases hb : b.attId = i
    · have h0 : parseSize b.size = .num 0 := hz b (by simp) hb
      rw [step_skip_zero L st b h0]
      exact ih st (fun c hc => hz c (by simp [hc]))
    · rw [ih (stepWorker L st b) (fun c hc => hz c (by simp [hc]))]
      exact pf_step_ne L st b i hb

theorem partsFor_finalize (i : Nat) (st : PlannerState) :
    partsFor i (finalizePlans st) = pf i st := by
  unfold partsFor finalizePlans pf allParts
  by_cases h : st.cur.files.length > 0
  · simp [h, planParts_append, planParts_single]
  · have hnil : st.cur.files = [] := by
      simpa using List.eq_nil_of_length_eq_zero (by omega)
    simp [h, hnil]

theorem pf_step_self (L : Nat) (st : PlannerState) (a : Attachment) (n : Nat)
    (hs : parseSize a.size = .num n) (hn : 0 < n)
    (hfresh : pf a.attId st = []) :
    rangesOf (pf a.attId (stepWorker L st a))
      = (expectedRanges L n).map (fun r => (r.1, JsNum.num r.2)) := by
  have hsplit : (planParts st.segs).filter (fun p => p.attId == a.attId) = []
      ∧ st.cur.files.filter (fun p => p.attId == a.attId) = [] := by
    rw [pf_split] at hfresh
    exact List.append_eq_nil.mp hfresh
  have hself : ([wholePart a (parseSize a.size)].filter (fun p => p.attId == a.attId))
      = [wholePart a (parseSize a.size)] := by
    simp [wholePart]
  rcases n with _ | m
  · exact absurd hn (by omega)
  · rw [hs] at hself
    rw [stepWorker_num L st a m hs]
    by_cases hov : L < m + 1
    · rw [if_pos hov]
      rw [pf_oversized]
      have hmid : (planParts (oversizedPlans a (m + 1) L (jsCeilDiv (m + 1) L)
          st.segs.length 0 (jsCeilDiv (m + 1) L))).filter (fun p => p.attId == a.attId)
          = planParts (oversizedPlans a (m + 1) L (jsCeilDiv (m + 1) L)
              st.segs.length 0 (jsCeilDiv (m + 1) L)) := by
        rw [List.filter_eq_self]
        intro p hp
        have := oversizedPlans_attId a (m + 1) L (jsCeilDiv (m + 1) L) st.segs.length
          (jsCeilDiv (m + 1) L) 0 p hp
        simp [this]
      rw [hsplit.1, hsplit.2, hmid, List.nil_append, List.append_nil,
        oversizedPlans_ranges]
      unfold expectedRanges
      simp [hov]
    · rw [if_neg hov]
      have hexp : expectedRanges L (m + 1) = [(0, m + 1)] := by
        unfold expectedRanges
        simp [hov]
      by_cases hfl : jgt (jadd st.cur.size (JsNum.num (m + 1))) L
      · rw [if_pos hfl]
        rw [pf_flush, hfresh, hself, hexp, List.nil_append]
        simp [rangesOf, wholePart]
      · rw [if_neg hfl]
        rw [pf_append, hfresh, hself, hexp, List.nil_append]
        simp [rangesOf, wholePart]

/-! ### Arithmetic facts about the ceiling division -/

theorem jsCeilDiv_eq (n L : Nat) (hL : 0 < L) (hn : 0 < n) :
    jsCeilDiv n L = (n - 1) / L + 1 := by
  unfold jsCeilDiv
  have h : n + L - 1 = (n - 1) + L := by omega
  rw [h, Nat.add_div_right _ hL]

theorem jsCeilDiv_lb (n L : Nat) (hL : 0 < L) (hn : 0 < n) :
    (jsCeilDiv n L - 1) * L ≤ n - 1 := by
  rw [jsCeilDiv_eq n L hL hn]
  simpa using Nat.div_mul_le_self (n - 1) L

theorem jsCeilDiv_ub (n L : Nat) (hL : 0 < L) (hn : 0 < n) :
    n ≤ jsCeilDiv n L * L := by
  rw [jsCeilDiv_eq n L hL hn]
  have h : (n - 1) / L < (n - 1) / L + 1 := Nat.lt_succ_self _
  have := (Nat.div_lt_iff_lt_mul hL).mp h
  omega

theorem covers_slices (L n : Nat) (hL : 0 < L) (hLn : L < n) :
    ∀ fuel i, i + fuel = jsCeilDiv n L → i * L < n →
      coversB (i * L) n (slices L n i fuel) = true := by
  have hub := jsCeilDiv_ub n L hL (by omega)
  have hlb := jsCeilDiv_lb n L hL (by omega)
  intro fuel
  induction fuel with
  | zero =>
    intro i hk hi
    exfalso
    have : i = jsCeilDiv n L := by omega
    subst this
    omega
  | succ fuel ih =>
    intro i hk hi
    rw [slices, coversB]
    have h1 : i * L < (i + 1) * L := by
      have : (i + 1) * L = i * L + L := by ring
      omega
    have hlt : i * L < min ((i + 1) * L) n := lt_min h1 hi
    rcases fuel with _ | fuel
    · have hkk : i + 1 = jsCeilDiv n L := by omega
      have hmin : min ((i + 1) * L) n = n := by
        rw [Nat.min_eq_right]
        rw [hkk]
        exact hub
      rw [hmin]
      simp [coversB, slices, hi]
    · have hle : (i + 1) ≤ jsCeilDiv n L - 1 := by omega
      have h2 : (i + 1) * L ≤ (jsCeilDiv n L - 1) * L :=
        Nat.mul_le_mul_right L hle
      have h3 : (i + 1) * L < n := by omega
      have hmin : min ((i + 1) * L) n = (i + 1) * L := Nat.min_eq_left (by omega)
      rw [hmin]
      have := ih (i + 1) (by omega) h3
      simp [h1, hi, hlt, this]

theorem coversB_expected (L n : Nat) (hL : 0 < L) (hn : 0 < n) :
    coversB 0 n (expectedRanges L n) = true := by
  unfold expectedRanges
  by_cases h : L < n
  · simp only [h, if_true]
    have := covers_slices L n hL h (jsCeilDiv n L) 0 (by omega) (by simpa using hn)
    simpa using this
  · simp [h, coversB, hn]

theorem nodup_split (s t : List Attachment) (a : Attachment)
    (hnd : ((s ++ a :: t).map Attachment.attId).Nodup) :
    (∀ b ∈ s, b.attId ≠ a.attId) ∧ (∀ b ∈ t, b.attId ≠ a.attId) := by
  rw [List.map_append, List.nodup_append] at hnd
  obtain ⟨_, hnd2, hdisj⟩ := hnd
  rw [List.map_cons, List.nodup_cons] at hnd2
  constructor
  · intro b hb heq
    exact hdisj (List.mem_map_of_mem Attachment.attId hb) (by simp [heq])
  · intro b hb heq
    exact hnd2.1 (heq ▸ List.mem_map_of_mem Attachment.attId hb)

/-- C2.  Planner completeness, background-worker grouping loop: for every
attachment whose size parses to a positive integer, the byte ranges of the
parts that reference it, across all emitted plans in emission order, are
exactly the expected ranges, and those ranges exactly cover [0, size)
in increasing order with no gaps and no overlaps. -/
theorem planner_completeness (L : Nat) (hL : 0 < L) (atts : List Attachment)
    (hnd : (atts.map Attachment.attId).Nodup) (a : Attachment) (ha : a ∈ atts)
    (n : Nat) (hs : parseSize a.size = .num n) (hn : 0 < n) :
    rangesOf (partsFor a.attId (segmentWorker L atts))
      = (expectedRanges L n).map (fun r => (r.1, JsNum.num r.2))
    ∧ coversB 0 n (expectedRanges L n) = true := by
  obtain ⟨s, t, rfl⟩ := List.append_of_mem ha
  obtain ⟨hpre, hpost⟩ := nodup_split s t a hnd
  refine ⟨?_, coversB_expected L n hL hn⟩
  unfold segmentWorker
  rw [partsFor_finalize, List.foldl_append, List.foldl_cons]
  have hinit : pf a.attId initPlanner = [] := rfl
  have hpre0 : pf a.attId (s.foldl (stepWorker L) initPlanner) = [] := by
    rw [pf_foldl L a.attId s initPlanner
      (fun b hb heq => absurd heq (hpre b hb))]
    exact hinit
  rw [pf_foldl L a.attId t _
    (fun b hb heq => absurd heq (hpost b hb))]
  exact pf_step_self L _ a n hs hn hpre0

/-- C2 witness: the completeness theorem applied to one 25-byte attachment
under a 10-byte limit. -/
theorem planner_completeness_witness :
    rangesOf (partsFor 0 (segmentWorker 10
        [{ attId := 0, ticket := "T-1", filename := "a", size := .numStr 25 }]))
      = (expectedRanges 10 25).map (fun r => (r.1, JsNum.num r.2))
    ∧ coversB 0 25 (expectedRanges 10 25) = true :=
  planner_completeness 10 (by decide)
    [{ attId := 0, ticket := "T-1", filename := "a", size := .numStr 25 }]
    (by decide)
    { attId := 0, ticket := "T-1", filename := "a", size := .numStr 25 }
    (by simp) 25 rfl (by decide)

/-! ### Plan size bound -/

/-- A plan size that is an integer of at most `L` bytes. -/
def planSizeLe (L : Nat) (p : Plan) : Prop :=
  ∃ m, p.size = JsNum.num m ∧ m ≤ L

theorem oversizedPlans_sizeLe (a : Attachment) (n L k base : Nat) :
    ∀ fuel i, ∀ p ∈ oversizedPlans a n L k base i fuel, planSizeLe L p := by
  intro fuel
  induction fuel with
  | zero => intro i p hp; simp [oversizedPlans] at hp
  | succ fuel ih =>
    intro i p hp
    rw [oversizedPlans] at hp
    rcases List.mem_cons.mp hp with hp | hp
    · subst hp
      refine ⟨min ((i + 1) * L) n - i * L, rfl, ?_⟩
      have h1 : (i + 1) * L = i * L + L := by ring
      have h2 : min ((i + 1) * L) n ≤ (i + 1) * L := min_le_left _ _
      omega
    · exact ih (i + 1) p hp

theorem flushAndStart_pos (st : PlannerState) (a : Attachment) (sz : JsNum)
    (h : st.cur.files.length > 0) :
    flushAndStart st a sz
      = { segs := st.segs ++ [st.cur],
          cur := { files := [wholePart a sz], size := sz,
                   number := (st.segs ++ [st.cur]).length + 1 } } := by
  simp [flushAndStart, h]

theorem flushAndStart_neg (st : PlannerState) (a : Attachment) (sz : JsNum)
    (h : ¬ st.cur.files.length > 0) :
    flushAndStart st a sz
      = { segs := st.segs,
          cur := { files := [wholePart a sz], size := sz,
                   number := st.segs.length + 1 } } := by
  simp [flushAndStart, h]

/-- The size invariant the grouping loop maintains: all emitted plans have
integer size at most `L`, and the accumulating segment does too. -/
def sizeInv (L : Nat) (st : PlannerState) : Prop :=
  (∀ p ∈ st.segs, planSizeLe L p) ∧ ∃ t, st.cur.size = JsNum.num t ∧ t ≤ L

theorem stepWorker_sizeInv (L : Nat) (st : PlannerState) (a : Attachment)
    (h : sizeInv L st) (hnum : parseSize a.size ≠ .nan) :
    sizeInv L (stepWorker L st a) := by
  obtain ⟨hsegs, t, hcur, htL⟩ := h
  rcases hsz : parseSize a.size with n | _
  · rcases n with _ | m
    · rw [stepWorker_zero L st a hsz]
      exact ⟨hsegs, t, hcur, htL⟩
    · rw [stepWorker_num L st a m hsz]
      by_cases hov : L < m + 1
      · rw [if_pos hov]
        refine ⟨?_, t, hcur, htL⟩
        intro p hp
        rcases List.mem_append.mp hp with hp | hp
        · exact hsegs p hp
        · exact oversizedPlans_sizeLe a (m + 1) L _ _ _ 0 p hp
      · rw [if_neg hov]
        by_cases hfl : jgt (jadd st.cur.size (JsNum.num (m + 1))) L
        · rw [if_pos hfl]
          by_cases hcf : st.cur.files.length > 0
          · rw [flushAndStart_pos st a _ hcf]
            constructor
            · intro p hp
              rcases List.mem_append.mp hp with hp | hp
              · exact hsegs p hp
              · rw [List.mem_singleton] at hp
                subst hp
                exact ⟨t, hcur, htL⟩
            · exact ⟨m + 1, rfl, by omega⟩
          · rw [flushAndStart_neg st a _ hcf]
            exact ⟨hsegs, m + 1, rfl, by omega⟩
        · rw [if_neg hfl]
          refine ⟨hsegs, t + (m + 1), ?_, ?_⟩
          · simp [appendCurrent, hcur, jadd]
          · rw [hcur] at hfl
            simp [jadd, jgt] at hfl
            omega
  · exact absurd hsz hnum

/-- C3.  Planner bound, background-worker grouping loop: for inputs whose
sizes all parse to integers and a positive limit, every emitted plan (the
single-slice plans of oversized attachments and the accumulated
multi-file plans alike) has an integer size of at most the limit. -/
theorem planner_bound (L : Nat) (hL : 0 < L) (atts : List Attachment)
    (hnum : ∀ a ∈ atts, parseSize a.size ≠ .nan)
    (p : Plan) (hp : p ∈ segmentWorker L atts) :
    ∃ m, p.size = JsNum.num m ∧ m ≤ L := by
  have hfold : ∀ (l : List Attachment) (st : PlannerState), sizeInv L st →
      (∀ a ∈ l, parseSize a.size ≠ .nan) →
      sizeInv L (l.foldl (stepWorker L) st) := by
    intro l
    induction l with
    | nil => intro st h _; exact h
    | cons b l ih =>
      intro st h hl
      rw [List.foldl_cons]
      exact ih _ (stepWorker_sizeInv L st b h (hl b (by simp)))
        (fun c hc => hl c (by simp [hc]))
  have hinit : sizeInv L initPlanner := ⟨by simp [initPlanner], 0, rfl, by omega⟩
  obtain ⟨hsegs, t, hcur, htL⟩ := hfold atts initPlanner hinit hnum
  unfold segmentWorker finalizePlans at hp
  by_cases h : (atts.foldl (stepWorker L) initPlanner).cur.files.length > 0
  · rw [if_pos h] at hp
    rcases List.mem_append.mp hp with hp | hp
    · exact hsegs p hp
    · rw [List.mem_singleton] at hp
      subst hp
      exact ⟨t, hcur, htL⟩
  · rw [if_neg h] at hp
    exact hsegs p hp

/-- C3 witness: the bound theorem applied to a 7-byte attachment under a
10-byte limit, whose single emitted plan is the flushed current segment. -/
theorem planner_bound_witness :
    ∃ m, (Plan.mk [wholePart { attId := 0, ticket := "T-1", filename := "a", size := .numStr 7 } (.num 7)] (.num 7) 1).size
        = JsNum.num m ∧ m ≤ 10 :=
  planner_bound 10 (by decide)
    [{ attId := 0, ticket := "T-1", filename := "a", size := .numStr 7 }]
    (by decide) _ (by decide)

/-! ### Segment numbering -/

/-- C1 counterexample: with limit 10 and attachment sizes [3, 25], the
worker loop emits four plans whose number fields are [1, 2, 3, 1] — the
accumulating segment keeps its stale number 1 while the oversized burst
reuses numbers 1-3, so the emitted numbers are neither dense nor
duplicate-free, and the 4th emitted plan does not carry number 4. -/
theorem segment_numbers_cex :
    ((segmentWorker 10
        [{ attId := 0, ticket := "T-1", filename := "a", size := .numStr 3 },
         { attId := 1, ticket := "T-1", filename := "b", size := .numStr 25 }]).map Plan.number
      = [1, 2, 3, 1])
    ∧ ((segmentWorker 10
        [{ attId := 0, ticket := "T-1", filename := "a", size := .numStr 3 },
         { attId := 1, ticket := "T-1", filename := "b", size := .numStr 25 }]).map Plan.number
      ≠ List.range' 1 (segmentWorker 10
        [{ attId := 0, ticket := "T-1", filename := "a", size := .numStr 3 },
         { attId := 1, ticket := "T-1", filename := "b", size := .numStr 25 }]).length) := by
  decide

/-- The numbering invariant that holds while no oversized burst occurs:
emitted plans are numbered 1..len in emission order and the accumulating
segment is pre-assigned the next number. -/
def numInv (st : PlannerState) : Prop :=
  st.segs.map Plan.number = List.range' 1 st.segs.length
  ∧ st.cur.number = st.segs.length + 1

theorem range'_one_concat (n : Nat) :
    List.range' 1 (n + 1) = List.range' 1 n ++ [n + 1] := by
  rw [List.range'_concat]
  simp [Nat.add_comm]

theorem stepWorker_numInv (L : Nat) (st : PlannerState) (a : Attachment)
    (h : numInv st) (hno : jgt (parseSize a.size) L = false) :
    numInv (stepWorker L st a) := by
  obtain ⟨h1, h2⟩ := h
  rcases hsz : parseSize a.size with n | _
  · rcases n with _ | m
    · rw [stepWorker_zero L st a hsz]
      exact ⟨h1, h2⟩
    · have hov : ¬ L < m + 1 := by
        rw [hsz] at hno
        simpa [jgt] using hno
      rw [stepWorker_num L st a m hsz, if_neg hov]
      by_cases hfl : jgt (jadd st.cur.size (JsNum.num (m + 1))) L
      · rw [if_pos hfl]
        by_cases hcf : st.cur.files.length > 0
        · rw [flushAndStart_pos st a _ hcf]
          refine ⟨?_, ?_⟩
          · rw [List.map_append, h1]
            simp only [List.map_cons, List.map_nil, List.length_append,
              List.length_cons, List.length_nil]
            rw [h2, range'_one_concat]
          · rfl
        · rw [flushAndStart_neg st a _ hcf]
          exact ⟨h1, rfl⟩
      · rw [if_neg hfl]
        exact ⟨h1, h2⟩
  · rw [stepWorker_nan L st a hsz]
    exact ⟨h1, h2⟩

/-- C1 amended.  When no attachment's parsed size exceeds the limit (so the
oversized-split branch never fires), the emitted plans carry number values
1..k dense and contiguous in emission order; and unconditionally, every
persisted segment record is stamped with total_segments equal to the final
plan count. -/
theorem segment_numbers_amended (L : Nat) (atts : List Attachment)
    (hno : ∀ a ∈ atts, jgt (parseSize a.size) L = false) :
    (segmentWorker L atts).map Plan.number
      = List.range' 1 (segmentWorker L atts).length
    ∧ ∀ r ∈ segmentRecords (segmentWorker L atts),
        r.totalSegments = (segmentWorker L atts).length := by
  constructor
  · have hfold : ∀ (l : List Attachment) (st : PlannerState), numInv st →
        (∀ a ∈ l, jgt (parseSize a.size) L = false) →
        numInv (l.foldl (stepWorker L) st) := by
      intro l
      induction l with
      | nil => intro st h _; exact h
      | cons b l ih =>
        intro st h hl
        rw [List.foldl_cons]
        exact ih _ (stepWorker_numInv L st b h (hl b (by simp)))
          (fun c hc => hl c (by simp [hc]))
    have hinit : numInv initPlanner := ⟨rfl, rfl⟩
    obtain ⟨h1, h2⟩ := hfold atts initPlanner hinit hno
    unfold segmentWorker finalizePlans
    by_cases h : (atts.foldl (stepWorker L) initPlanner).cur.files.length > 0
    · rw [if_pos h, List.map_append, h1]
      simp only [List.map_cons, List.map_nil, List.length_append,
        List.length_cons, List.length_nil]
      rw [h2, range'_one_concat]
    · rw [if_neg h]
      exact h1
  · intro r hr
    unfold segmentRecords at hr
    obtain ⟨s, _, rfl⟩ := List.mem_map.mp hr
    rfl

/-- C1 witness: the amended numbering theorem applied to two small
attachments under a 10-byte limit. -/
theorem segment_numbers_amended_witness :
    (segmentWorker 10
        [{ attId := 0, ticket := "T-1", filename := "a", size := .numStr 3 },
         { attId := 1, ticket := "T-1", filename := "b", size := .numStr 9 }]).map Plan.number
      = List.range' 1 (segmentWorker 10
        [{ attId := 0, ticket := "T-1", filename := "a", size := .numStr 3 },
         { attId := 1, ticket := "T-1", filename := "b", size := .numStr 9 }]).length :=
  (segment_numbers_amended 10
    [{ attId := 0, ticket := "T-1", filename := "a", size := .numStr 3 },
     { attId := 1, ticket := "T-1", filename := "b", size := .numStr 9 }]
    (by decide)).1

/-! ### Zero-size and unparseable-size attachments -/

/-- C4 counterexample: the claim fails twice over.  In the server.js loop a
size-0 attachment is not skipped: it contributes a zero-length part to the
emitted plan.  In the worker loop an unparseable size is not treated as 0:
parseInt yields NaN, which fails the `=== 0` test and lands in the
accumulating segment as a NaN-sized part. -/
theorem zero_size_skip_cex :
    ((partsForS 0 (segmentServer 10
        [{ attId := 0, ticket := "T-1", filename := "z", size := .numStr 0 }])).map
          (fun p => (p.startByte, p.endByte)) = [(0, JsNum.num 0)])
    ∧ ((partsFor 0 (segmentWorker 10
        [{ attId := 0, ticket := "T-1", filename := "j", size := .unparseable }])).map
          (fun p => (p.startByte, p.endByte)) = [(0, JsNum.nan)]) := by
  decide

/-- C4 amended.  In the background-worker (and part_006) grouping loop, an
attachment whose size parses to 0 — size metadata 0 or missing — is
skipped: it contributes no part to any emitted plan and causes no error
(the loop is total).  The server.js loop does not skip zero-size
attachments, and an unparseable size is NaN rather than 0 in both loops,
as the counterexample records. -/
theorem worker_zero_size_skip (L : Nat) (atts : List Attachment) (i : Nat)
    (h : ∀ b ∈ atts, b.attId = i → parseSize b.size = .num 0) :
    partsFor i (segmentWorker L atts) = [] := by
  unfold segmentWorker
  rw [partsFor_finalize, pf_foldl L i atts initPlanner h]
  rfl

/-- C4 witness: a single attachment with missing size metadata contributes
no part under the worker loop. -/
theorem worker_zero_size_skip_witness :
    partsFor 0 (segmentWorker 10
      [{ attId := 0, ticket := "T-1", filename := "m", size := .missing }]) = [] :=
  worker_zero_size_skip 10
    [{ attId := 0, ticket := "T-1", filename := "m", size := .missing }] 0
    (by decide)

/-! ### The concrete 50 MB scenario -/

/-- C8.  With a 50 MB limit and attachments of 30, 30, 120 and 10 MB in
that order for a single ticket, the worker loop emits exactly 5 plans of
sizes 30, 50, 50, 20 and 40 MB in emission order, summing to 190 MB. -/
theorem fifty_mb_scenario :
    ((segmentWorker (MB 50)
        [{ attId := 0, ticket := "T-1", filename := "a", size := .numStr (MB 30) },
         { attId := 1, ticket := "T-1", filename := "b", size := .numStr (MB 30) },
         { attId := 2, ticket := "T-1", filename := "c", size := .numStr (MB 120) },
         { attId := 3, ticket := "T-1", filename := "d", size := .numStr (MB 10) }]).length = 5)
    ∧ ((segmentWorker (MB 50)
        [{ attId := 0, ticket := "T-1", filename := "a", size := .numStr (MB 30) },
         { attId := 1, ticket := "T-1", filename := "b", size := .numStr (MB 30) },
         { attId := 2, ticket := "T-1", filename := "c", size := .numStr (MB 120) },
         { attId := 3, ticket := "T-1", filename := "d", size := .numStr (MB 10) }]).map Plan.size
      = [.num (MB 30), .num (MB 50), .num (MB 50), .num (MB 20), .num (MB 40)])
    ∧ ((segmentWorker (MB 50)
        [{ attId := 0, ticket := "T-1", filename := "a", size := .numStr (MB 30) },
         { attId := 1, ticket := "T-1", filename := "b", size := .numStr (MB 30) },
         { attId := 2, ticket := "T-1", filename := "c", size := .numStr (MB 120) },
         { attId := 3, ticket := "T-1", filename := "d", size := .numStr (MB 10) }]).foldl
          (fun acc p => jadd acc p.size) (.num 0) = .num (MB 190)) := by
  decide

/-! ### Zero-plan jobs: nothing-to-download handling -/

/-- C5 counterexample: a job requesting attachments for which segmentation
yields zero plans does not fail in the background-worker path — the
segment-building loop runs zero times and the job is marked completed with
no error and no segment rows, contradicting the claim that every such job
fails with a distinct nothing-to-download error. -/
theorem zero_segments_completes_cex :
    runAttachmentPhase (fun _ _ => .ok ()) (segmentWorker defaultsSegmentSizeLimit [])
      = { status := "completed", error := none, savedSegments := [] } := by
  decide

/-- C5 amended.  Only the part_006 interactive handler raises a distinct
nothing-to-download failure on zero plans (`No valid attachments found to
download`, surfaced by the segmentation try/catch as `Failed to organize
attachments: ...`); the background worker instead completes the job
successfully with zero segment rows and no error. -/
theorem nothing_to_download_amended :
    (∀ (L : Nat) (atts : List Attachment), segmentWorker L atts = [] →
      part006SegmentationOutcome L atts
        = .error "Failed to organize attachments: No valid attachments found to download")
    ∧ ∀ fetch : Nat → Nat → Except JsError Unit,
        runAttachmentPhase fetch []
          = { status := "completed", error := none, savedSegments := [] } := by
  constructor
  · intro L atts h
    simp only [part006SegmentationOutcome, h]
    rfl
  · intro fetch
    rfl

/-- C5 witness: the amended theorem applied to the empty attachment list
under the default 50 MB limit. -/
theorem nothing_to_download_amended_witness :
    part006SegmentationOutcome defaultsSegmentSizeLimit []
      = .error "Failed to organize attachments: No valid attachments found to download"
    ∧ runAttachmentPhase (fun _ _ => .ok ()) []
      = { status := "completed", error := none, savedSegments := [] } :=
  ⟨nothing_to_download_amended.1 defaultsSegmentSizeLimit [] rfl,
   nothing_to_download_amended.2 (fun _ _ => .ok ())⟩

/-! ### Segment visibility on job reads -/

/-- C6 counterexample: getJobById attaches segment rows with no status
check — for a store holding a job in status processing with one segment
row, the returned job carries that segment, contradicting the claim that
segments are returned only for completed jobs. -/
theorem segments_visibility_cex :
    (getJobById
      { jobs := [{ job_id := "j1", username := "u", api_key := "k", project_key := "P",
                   download_type := "all", file_format := "json", download_path := "/d",
                   status := "processing", created_at := "t1", updated_at := "t1",
                   completed_at := none, error := none }],
        segments := [{ job_id := "j1", segment_number := 1, total_segments := 1,
                       status := "completed", file_path := "/d/s1.zip", file_count := 2,
                       size_bytes := 100, created_at := "t1", updated_at := "t1" }] } "j1").map
      (fun v => (v.status, (v.segments.getD []).length))
    = .ok ("processing", 1) := rfl

/-- C6 amended.  The job-listing operation getJobs attaches a job's
segments exactly when that job's status is completed; the single-job
lookup getJobById attaches the job's segment rows unconditionally,
whatever the status. -/
theorem segments_visibility_amended :
    (∀ (db : Db) (v : JobView), v ∈ getJobs db →
      (v.status == "completed") = false → v.segments = none)
    ∧ (∀ (db : Db) (v : JobView), v ∈ getJobs db →
      (v.status == "completed") = true →
      v.segments = some (segmentsForJob db.segments v.job_id))
    ∧ (∀ (db : Db) (jobId : String) (v : JobView), getJobById db jobId = .ok v →
      v.segments = some (segmentsForJob db.segments jobId)) := by
  refine ⟨?_, ?_, ?_⟩
  · intro db v hv hs
    obtain ⟨j, _, rfl⟩ := List.mem_map.mp hv
    simp only [listJobView] at hs ⊢
    simp [hs]
  · intro db v hv hs
    obtain ⟨j, _, rfl⟩ := List.mem_map.mp hv
    simp only [listJobView] at hs ⊢
    simp [hs]
  · intro db jobId v h
    unfold getJobById at h
    rcases hf : db.jobs.find? (fun j => j.job_id == jobId) with _ | j
    · simp only [hf] at h
      exact Except.noConfusion h
    · simp only [hf] at h
      have hv := Except.ok.inj h
      rw [← hv]
      rfl

/-- C6 witness: the amended theorem applied to a store with one processing
job (getJobs leaves segments off) and, via the lookup branch, to the same
store's getJobById result. -/
theorem segments_visibility_witness :
    (listJobView []
      { job_id := "j1", username := "u", api_key := "k", project_key := "P",
        download_type := "all", file_format := "json", download_path := "/d",
        status := "processing", created_at := "t1", updated_at := "t1",
        completed_at := none, error := none }).segments = none :=
  segments_visibility_amended.1
    { jobs := [{ job_id := "j1", username := "u", api_key := "k", project_key := "P",
                 download_type := "all", file_format := "json", download_path := "/d",
                 status := "processing", created_at := "t1", updated_at := "t1",
                 completed_at := none, error := none }],
      segments := [] }
    (listJobView []
      { job_id := "j1", username := "u", api_key := "k", project_key := "P",
        download_type := "all", file_format := "json", download_path := "/d",
        status := "processing", created_at := "t1", updated_at := "t1",
        completed_at := none, error := none })
    (by decide) (by decide)

/-! ### Cancellation -/

/-- C7.  cancelJob succeeds exactly when the job exists and is pending (and
then rewrites exactly the matching row to cancelled with a fresh
updated_at, leaving the segment table untouched); a missing job yields the
not-found error; a job in any other status yields the cannot-cancel error
naming that status, with no update run. -/
theorem cancel_job_pending_only (db : Db) (now jobId : String) :
    ((∃ db2, cancelJob db now jobId = .ok db2)
      ↔ ∃ r, db.jobs.find? (fun j => j.job_id == jobId) = some r ∧ r.status = "pending")
    ∧ (db.jobs.find? (fun j => j.job_id == jobId) = none →
        cancelJob db now jobId = .error "Job not found")
    ∧ (∀ r, db.jobs.find? (fun j => j.job_id == jobId) = some r → r.status ≠ "pending" →
        cancelJob db now jobId = .error ("Cannot cancel job with status: " ++ r.status))
    ∧ (∀ db2, cancelJob db now jobId = .ok db2 →
        db2.segments = db.segments
        ∧ db2.jobs = db.jobs.map (fun j =>
            if j.job_id == jobId
            then { j with status := "cancelled", updated_at := now }
            else j)) := by
  rcases hf : db.jobs.find? (fun j => j.job_id == jobId) with _ | r
  · refine ⟨?_, ?_, ?_, ?_⟩
    · constructor
      · rintro ⟨db2, h⟩
        unfold cancelJob at h
        simp only [hf] at h
        exact Except.noConfusion h
      · rintro ⟨r, hr, _⟩
        rw [hf] at hr
        exact absurd hr (by simp)
    · intro _
      unfold cancelJob
      simp only [hf]
    · intro r hr
      rw [hf] at hr
      exact absurd hr (by simp)
    · intro db2 h
      unfold cancelJob at h
      simp only [hf] at h
      exact Except.noConfusion h
  · refine ⟨?_, ?_, ?_, ?_⟩
    · constructor
      · rintro ⟨db2, h⟩
        unfold cancelJob at h
        simp only [hf] at h
        by_cases hst : r.status == "pending"
        · exact ⟨r, hf, by simpa using hst⟩
        · rw [if_neg hst] at h
          exact absurd h (by simp)
      · rintro ⟨r2, hr2, hp⟩
        rw [hf] at hr2
        have hrr : r = r2 := by injection hr2
        subst hrr
        refine ⟨{ db with jobs := db.jobs.map (fun j =>
          if j.job_id == jobId
          then { j with status := "cancelled", updated_at := now }
          else j) }, ?_⟩
        unfold cancelJob
        simp only [hf]
        rw [if_pos (by simpa using hp)]
    · intro h
      rw [hf] at h
      exact absurd h (by simp)
    · intro r2 hr2 hne
      rw [hf] at hr2
      have hrr : r = r2 := by injection hr2
      subst hrr
      unfold cancelJob
      simp only [hf]
      rw [if_neg (by simpa using hne)]
    · intro db2 h
      unfold cancelJob at h
      simp only [hf] at h
      by_cases hst : r.status == "pending"
      · rw [if_pos hst] at h
        have hv := Except.ok.inj h
        exact ⟨by rw [← hv], by rw [← hv]⟩
      · rw [if_neg hst] at h
        exact absurd h (by simp)

/-- C7 witness: cancelling a processing job is rejected with the
cannot-cancel error and, per the theorem, no update is run. -/
theorem cancel_job_pending_only_witness :
    cancelJob
      { jobs := [{ job_id := "j1", username := "u", api_key := "k", project_key := "P",
                   download_type := "all", file_format := "json", download_path := "/d",
                   status := "processing", created_at := "t1", updated_at := "t1",
                   completed_at := none, error := none }],
        segments := [] } "t2" "j1"
    = .error "Cannot cancel job with status: processing" :=
  (cancel_job_pending_only
    { jobs := [{ job_id := "j1", username := "u", api_key := "k", project_key := "P",
                 download_type := "all", file_format := "json", download_path := "/d",
                 status := "processing", created_at := "t1", updated_at := "t1",
                 completed_at := none, error := none }],
      segments := [] } "t2" "j1").2.2.1
    { job_id := "j1", username := "u", api_key := "k", project_key := "P",
      download_type := "all", file_format := "json", download_path := "/d",
      status := "processing", created_at := "t1", updated_at := "t1",
      completed_at := none, error := none }
    (by decide) (by decide)

/-! ### Retry exhaustion -/

/-- C9.  When the very first attachment fetch of a job fails on its initial
try and on all 3 retries (each attempt running with a strictly larger
timeout, `30000 * (rc + 1)` ms) with a timeout error, the job's attachment
phase ends in failed status with the fixed timeout message persisted and
no segment rows inserted. -/
theorem retry_exhaustion_fails (fetch : Nat → Nat → Except JsError Unit)
    (e : JsError) (p : Plan) (rest : List Plan) (f0 : Part) (fs : List Part)
    (hfiles : p.files = f0 :: fs)
    (he : isTimeoutError e = true)
    (hfail : ∀ g t, g ≤ defaultsApiMaxRetries → fetch g t = .error e) :
    runAttachmentPhase fetch (p :: rest)
      = { status := "failed", error := some timeoutMessage, savedSegments := [] } := by
  have h0 := hfail 0 (defaultsApiTimeout * (0 + 1)) (by decide)
  have h1 := hfail 1 (defaultsApiTimeout * (1 + 1)) (by decide)
  have h2 := hfail 2 (defaultsApiTimeout * (2 + 1)) (by decide)
  have h3 := hfail 3 (defaultsApiTimeout * (3 + 1)) (by decide)
  have hA : attemptLoop fetch defaultsApiTimeout 0 0 defaultsApiMaxRetries
      = .error e := by
    show attemptLoop fetch defaultsApiTimeout 0 0 3 = .error e
    rw [attemptLoop, h0, attemptLoop, h1, attemptLoop, h2, attemptLoop, h3]
  have hmsg : errorToStatusMessage e = timeoutMessage := by
    unfold errorToStatusMessage
    rw [if_pos he]
  unfold runAttachmentPhase
  rw [runPlans, hfiles, runFiles, hA]
  simp [hmsg]

/-- C9 witness: a remote that times out on every attempt, applied to a
single one-file plan. -/
theorem retry_exhaustion_fails_witness :
    runAttachmentPhase
      (fun _ _ => .error { code := some "ECONNABORTED", message := "timeout of 30000ms exceeded" })
      [{ files := [wholePart { attId := 0, ticket := "T-1", filename := "a", size := .numStr 5 } (.num 5)],
         size := .num 5, number := 1 }]
    = { status := "failed", error := some timeoutMessage, savedSegments := [] } :=
  retry_exhaustion_fails
    (fun _ _ => .error { code := some "ECONNABORTED", message := "timeout of 30000ms exceeded" })
    { code := some "ECONNABORTED", message := "timeout of 30000ms exceeded" }
    { files := [wholePart { attId := 0, ticket := "T-1", filename := "a", size := .numStr 5 } (.num 5)],
      size := .num 5, number := 1 }
    [] (wholePart { attId := 0, ticket := "T-1", filename := "a", size := .numStr 5 } (.num 5)) []
    rfl (by decide) (fun _ _ _ => rfl)

/-! ### Credential fields never leave the store -/

theorem orderedInsert_scrub (a : JobRow) (l : List JobRow) :
    (List.orderedInsert jobNewerRel a l).map scrubJob
      = List.orderedInsert jobNewerRel (scrubJob a) (l.map scrubJob) := by
  induction l with
  | nil => rfl
  | cons b l ih =>
    by_cases h : jobNewerRel a b
    · have h2 : jobNewerRel (scrubJob a) (scrubJob b) := h
      simp only [List.orderedInsert]
      rw [if_pos h, if_pos h2, List.map_cons, List.map_cons]
    · have h2 : ¬ jobNewerRel (scrubJob a) (scrubJob b) := h
      simp only [List.orderedInsert]
      rw [if_neg h, if_neg h2, List.map_cons, ih]

theorem insertionSort_scrub (l : List JobRow) :
    (List.insertionSort jobNewerRel l).map scrubJob
      = List.insertionSort jobNewerRel (l.map scrubJob) := by
  induction l with
  | nil => rfl
  | cons a l ih =>
    simp only [List.insertionSort]
    rw [orderedInsert_scrub, ih]

theorem find?_scrub (jobId : String) :
    ∀ l1 l2 : List JobRow, l1.map scrubJob = l2.map scrubJob →
      Option.map scrubJob (l1.find? (fun j => j.job_id == jobId))
        = Option.map scrubJob (l2.find? (fun j => j.job_id == jobId)) := by
  intro l1
  induction l1 with
  | nil =>
    intro l2 h
    have h2 : l2 = [] := by
      rcases l2 with _ | ⟨b, l2t⟩
      · rfl
      · simp at h
    subst h2
    rfl
  | cons a l ih =>
    intro l2 h
    rcases l2 with _ | ⟨b, l2t⟩
    · simp at h
    · simp only [List.map_cons, List.cons.injEq] at h
      obtain ⟨hab, hl⟩ := h
      have hid : a.job_id = b.job_id := by
        have h3 := congrArg JobRow.job_id hab
        exact h3
      by_cases hp : a.job_id == jobId
      · have hpb : (b.job_id == jobId) = true := by rw [← hid]; exact hp
        have e1 : List.find? (fun j => j.job_id == jobId) (a :: l) = some a := by
          simp [List.find?_cons, hp]
        have e2 : List.find? (fun j => j.job_id == jobId) (b :: l2t) = some b := by
          simp [List.find?_cons, hpb]
        rw [e1, e2]
        show some (scrubJob a) = some (scrubJob b)
        rw [hab]
      · have hpb : ¬ ((b.job_id == jobId) = true) := by rw [← hid]; exact hp
        have e1 : List.find? (fun j => j.job_id == jobId) (a :: l)
            = List.find? (fun j => j.job_id == jobId) l := by
          simp [List.find?_cons, hp]
        have e2 : List.find? (fun j => j.job_id == jobId) (b :: l2t)
            = List.find? (fun j => j.job_id == jobId) l2t := by
          simp [List.find?_cons, hpb]
        rw [e1, e2]
        exact ih l2t hl

theorem map_listJobView_scrub (segs : List SegRow) (l : List JobRow) :
    (l.map scrubJob).map (listJobView segs) = l.map (listJobView segs) := by
  induction l with
  | nil => rfl
  | cons a l ih =>
    rw [List.map_cons, List.map_cons, List.map_cons, ih]
    rfl

/-- C10.  Although saveJobToDatabase persists the submitter's username and
api_key on the job row, neither getJobs nor getJobById ever returns those
columns: for any two stores whose job rows agree after blanking
username/api_key (and whose segment rows agree), getJobs returns identical
lists and getJobById returns identical results for every job id. -/
theorem credentials_not_returned (db1 db2 : Db)
    (hjobs : db1.jobs.map scrubJob = db2.jobs.map scrubJob)
    (hsegs : db1.segments = db2.segments) :
    getJobs db1 = getJobs db2
    ∧ ∀ jobId, getJobById db1 jobId = getJobById db2 jobId := by
  constructor
  · unfold getJobs
    rw [hsegs]
    calc (List.insertionSort jobNewerRel db1.jobs).map (listJobView db2.segments)
        = ((List.insertionSort jobNewerRel db1.jobs).map scrubJob).map
            (listJobView db2.segments) := (map_listJobView_scrub _ _).symm
      _ = (List.insertionSort jobNewerRel (db1.jobs.map scrubJob)).map
            (listJobView db2.segments) := by
          rw [insertionSort_scrub]
      _ = (List.insertionSort jobNewerRel (db2.jobs.map scrubJob)).map
            (listJobView db2.segments) := by
          rw [hjobs]
      _ = ((List.insertionSort jobNewerRel db2.jobs).map scrubJob).map
            (listJobView db2.segments) := by
          rw [insertionSort_scrub]
      _ = (List.insertionSort jobNewerRel db2.jobs).map (listJobView db2.segments) :=
          map_listJobView_scrub _ _
  · intro jobId
    have h := find?_scrub jobId db1.jobs db2.jobs hjobs
    unfold getJobById
    rcases hf1 : db1.jobs.find? (fun j => j.job_id == jobId) with _ | j1 <;>
      rcases hf2 : db2.jobs.find? (fun j => j.job_id == jobId) with _ | j2 <;>
      rw [hf1, hf2] at h
    · simp only [hf1, hf2]
    · simp at h
    · simp at h
    · have h12 : scrubJob j1 = scrubJob j2 := by
        rw [Option.map, Option.map] at h
        exact Option.some.inj h
      simp only [hf1, hf2]
      rw [hsegs]
      show Except.ok (jobByIdView db2.segments jobId j1)
        = Except.ok (jobByIdView db2.segments jobId j2)
      rw [show jobByIdView db2.segments jobId j1
        = jobByIdView db2.segments jobId (scrubJob j1) from rfl, h12]
      rfl

/-- C10 witness: two stores holding the same job under different api_key
values produce identical getJobs output and identical getJobById output. -/
theorem credentials_not_returned_witness :
    getJobs
      { jobs := [{ job_id := "j1", username := "alice", api_key := "secretA",
                   project_key := "P", download_type := "all", file_format := "json",
                   download_path := "/d", status := "completed", created_at := "t1",
                   updated_at := "t1", completed_at := some "t1", error := none }],
        segments := [] }
    = getJobs
      { jobs := [{ job_id := "j1", username := "bob", api_key := "secretB",
                   project_key := "P", download_type := "all", file_format := "json",
                   download_path := "/d", status := "completed", created_at := "t1",
                   updated_at := "t1", completed_at := some "t1", error := none }],
        segments := [] }
    ∧ getJobById
      { jobs := [{ job_id := "j1", username := "alice", api_key := "secretA",
                   project_key := "P", download_type := "all", file_format := "json",
                   download_path := "/d", status := "completed", created_at := "t1",
                   updated_at := "t1", completed_at := some "t1", error := none }],
        segments := [] } "j1"
    = getJobById
      { jobs := [{ job_id := "j1", username := "bob", api_key := "secretB",
                   project_key := "P", download_type := "all", file_format := "json",
                   download_path := "/d", status := "completed", created_at := "t1",
                   updated_at := "t1", completed_at := some "t1", error := none }],
        segments := [] } "j1" :=
  ⟨(credentials_not_returned
      { jobs := [{ job_id := "j1", username := "alice", api_key := "secretA",
                   project_key := "P", download_type := "all", file_format := "json",
                   download_path := "/d", status := "completed", created_at := "t1",
                   updated_at := "t1", completed_at := some "t1", error := none }],
        segments := [] }
      { jobs := [{ job_id := "j1", username := "bob", api_key := "secretB",
                   project_key := "P", download_type := "all", file_format := "json",
                   download_path := "/d", status := "completed", created_at := "t1",
                   updated_at := "t1", completed_at := some "t1", error := none }],
        segments := [] } (by decide) rfl).1,
   (credentials_not_returned
      { jobs := [{ job_id := "j1", username := "alice", api_key := "secretA",
                   project_key := "P", download_type := "all", file_format := "json",
                   download_path := "/d", status := "completed", created_at := "t1",
                   updated_at := "t1", completed_at := some "t1", error := none }],
        segments := [] }
      { jobs := [{ job_id := "j1", username := "bob", api_key := "secretB",
                   project_key := "P", download_type := "all", file_format := "json",
                   download_path := "/d", status := "completed", created_at := "t1",
                   updated_at := "t1", completed_at := some "t1", error := none }],
        segments := [] } (by decide) rfl).2 "j1"⟩

end JiraDL
